import Mathlib

/- Verification development for the IR diff engine of
   src/LLVMProj/webapp/ir_diff_tool.py (class IRDiffTool).

   Embedding conventions: Python strings are Lean String values; Python lists
   are Lean List values; Python dicts are association lists with Python dict
   update semantics (dictInsert).  The parser, whose Python code can raise an
   IndexError, returns Option (none models the raised exception).  Python
   string primitives (startswith, strip, rstrip, split, slicing) are embedded
   below over the character list of the string, following their documented
   Python semantics exactly. -/

/-- Python whitespace set used by str.strip and str.rstrip. -/
def pyIsSpace (c : Char) : Bool :=
  c == ' ' || c == '\t' || c == '\n' || c == '\r' || c == '\x0b' || c == '\x0c'

/-- Python s.startswith(pre). -/
def pyStartswith (s pre : String) : Bool :=
  pre.data.isPrefixOf s.data

/-- Python s.strip(). -/
def pyStrip (s : String) : String :=
  ⟨(((s.data.dropWhile pyIsSpace).reverse).dropWhile pyIsSpace).reverse⟩

/-- Python s.rstrip(). -/
def pyRstrip (s : String) : String :=
  ⟨((s.data.reverse).dropWhile pyIsSpace).reverse⟩

/-- Python s[1:]. -/
def pyDrop1 (s : String) : String :=
  ⟨s.data.tail⟩

/-- Python s.split(c) for a one-character separator, over character lists. -/
def splitCharList (c : Char) : List Char → List (List Char)
  | [] => [[]]
  | x :: xs =>
    match splitCharList c xs with
    | [] => [[]]
    | y :: ys => if x = c then [] :: y :: ys else (x :: y) :: ys

/-- Python s.split(c) for a one-character separator. -/
def pySplitChar (s : String) (c : Char) : List String :=
  (splitCharList c s.data).map (fun l => ⟨l⟩)

/-- The name extraction of parse_ir, line 58 of ir_diff_tool.py:
    line.split(Char.ofNat 64)[1].split(Char.ofNat 40)[0].  The indexing [1]
    raises IndexError when the line holds no at-sign; this is modelled by
    none.  The [0] indexing never fails because split returns a non-empty
    list. -/
def extractName (line : String) : Option String :=
  match (pySplitChar line '@').get? 1 with
  | none => none
  | some s => some ((pySplitChar s '(').headD "")

abbrev IRBlock := List String

abbrev FunctionModel := List (String × List IRBlock)

/-- The mutable state of the parse_ir loop (lines 49-52 of ir_diff_tool.py). -/
structure ParseState where
  functions : FunctionModel
  current_func : Option String
  current_blocks : List IRBlock
  current_block : IRBlock
deriving DecidableEq

/-- Python dict assignment d[k] = v: overwrite in place when the key exists,
    otherwise append at the end (insertion order is preserved). -/
def dictInsert (m : FunctionModel) (k : String) (v : List IRBlock) : FunctionModel :=
  if m.any (fun p => p.1 == k) then
    m.map (fun p => if p.1 == k then (k, v) else p)
  else m ++ [(k, v)]

/-- The guarded store "if current_func: functions[current_func] = current_blocks"
    (lines 56-57 and 75-76).  Python string truthiness: the store is skipped
    both when current_func is None and when it is the empty string. -/
def flushFunc (st : ParseState) : FunctionModel :=
  match st.current_func with
  | none => st.functions
  | some f => if f.data.isEmpty then st.functions else dictInsert st.functions f st.current_blocks

/-- One iteration of the parse_ir loop body (lines 54-73 of ir_diff_tool.py).
    none models the IndexError raised by the name extraction. -/
def processLine (st : ParseState) (line : String) : Option ParseState :=
  if pyStartswith line "define" then
    match extractName line with
    | none => none
    | some name =>
      some { functions := flushFunc st
           , current_func := some name
           , current_blocks := []
           , current_block := [line] }
  else if pyStartswith line "  " then
    if pyStartswith (pyStrip line) ";" then some st
    else if pyStartswith (pyStrip line) "%" && !pyStartswith (pyStrip line) "%0" then
      some { st with
             current_blocks :=
               if st.current_block.isEmpty then st.current_blocks
               else st.current_blocks ++ [st.current_block]
           , current_block := [line] }
    else some { st with current_block := st.current_block ++ [line] }
  else
    if st.current_block.isEmpty then some st
    else some { st with current_blocks := st.current_blocks ++ [st.current_block]
                      , current_block := [] }

/-- The parse_ir loop over the list of lines. -/
def runLines : ParseState → List String → Option ParseState
  | st, [] => some st
  | st, l :: ls =>
    match processLine st l with
    | none => none
    | some st2 => runLines st2 ls

def initState : ParseState := ⟨[], none, [], []⟩

/-- The final store after the loop (lines 75-76 of ir_diff_tool.py). -/
def finalizeModel (st : ParseState) : FunctionModel :=
  flushFunc st

/-- Python content.split(backslash-n) as performed at line 54. -/
def pySplitLines (content : String) : List String :=
  pySplitChar content '\n'

/-- parse_ir on an already split document. -/
def parse_lines (ls : List String) : Option FunctionModel :=
  (runLines initState ls).map finalizeModel

/-- parse_ir (lines 43-78 of ir_diff_tool.py), taking the text content of the
    file rather than its name.  none models a raised IndexError. -/
def parse_ir (content : String) : Option FunctionModel :=
  parse_lines (pySplitLines content)

/-- Python zip over two lists, truncating to the shorter one. -/
def zipL : List α → List β → List (α × β)
  | [], _ => []
  | _, [] => []
  | a :: as2, b :: bs2 => (a, b) :: zipL as2 bs2

/-- Python enumerate starting at a given index. -/
def enumPairs : Nat → List α → List (Nat × α)
  | _, [] => []
  | n, p :: ps => (n, p) :: enumPairs (n + 1) ps

/-- The changes dict of _compare_instructions (lines 125-129). -/
structure BlockChanges where
  added : List String
  removed : List String
  modified : List (String × String)
deriving DecidableEq

/-- The changes dict of _compare_function (lines 108-112). -/
structure FuncChanges where
  added_blocks : List IRBlock
  removed_blocks : List IRBlock
  modified_blocks : List (Nat × BlockChanges)
deriving DecidableEq

/-- The instruction_changes bucket of structural_diff (lines 86-90). -/
structure InstructionChanges where
  added : List String
  removed : List String
  modified : List (String × String)
deriving DecidableEq

/-- The changes dict of structural_diff (lines 82-91). -/
structure StructuralDiff where
  added_functions : List String
  removed_functions : List String
  modified_functions : List (String × FuncChanges)
  instruction_changes : InstructionChanges
deriving DecidableEq

/-- One key_transformations entry of analyze_changes. -/
structure Transformation where
  type : String
  count : Nat
  description : String
deriving DecidableEq

/-- The analysis dict of analyze_changes (lines 215-219). -/
structure AnalysisReport where
  optimization_effects : List String
  performance_impact : String
  key_transformations : List Transformation
deriving DecidableEq

/-- _compare_instructions (lines 123-139): positional zip comparison; a pair
    is recorded as modified exactly when the two lines differ.  The added and
    removed buckets are never filled. -/
def compare_instructions (before_insts after_insts : List String) : BlockChanges :=
  { added := []
  , removed := []
  , modified := (zipL before_insts after_insts).filter (fun p => p.1 != p.2) }

/-- _compare_function (lines 106-121): positional zip comparison of blocks.
    The Python guard "if block_changes:" tests a dict that always carries its
    three fixed keys, so it is always truthy: an index is recorded exactly
    when the two blocks differ.  The added_blocks and removed_blocks buckets
    are never filled. -/
def compare_function (before_blocks after_blocks : List IRBlock) : FuncChanges :=
  { added_blocks := []
  , removed_blocks := []
  , modified_blocks :=
      ((enumPairs 0 (zipL before_blocks after_blocks)).filter
        (fun p => p.2.1 != p.2.2)).map
        (fun p => (p.1, compare_instructions p.2.1 p.2.2)) }

def keysOf (m : FunctionModel) : List String := m.map Prod.fst

/-- Python before_ir[func] lookup (keys of a Python dict are unique). -/
def lookupBlocks (m : FunctionModel) (k : String) : List IRBlock :=
  ((m.find? (fun p => p.1 == k)).map Prod.snd).getD []

/-- structural_diff (lines 80-104).  The Python source iterates over the
    unordered set union of the key sets; that order is unspecified, and only
    membership is observable in the claims, so the union is determinized here
    as the before keys followed by the after-only keys.  The Python guard
    "if func_changes:" tests a dict that always carries its three fixed keys,
    so it is always truthy: every function present in both models is recorded
    in modified_functions. -/
def structural_diff (before_ir after_ir : FunctionModel) : StructuralDiff :=
  let names := keysOf before_ir ++ (keysOf after_ir).filter (fun k => !(keysOf before_ir).contains k)
  { added_functions := names.filter (fun f => !(keysOf before_ir).contains f)
  , removed_functions := names.filter
      (fun f => (keysOf before_ir).contains f && !(keysOf after_ir).contains f)
  , modified_functions := (names.filter
      (fun f => (keysOf before_ir).contains f && (keysOf after_ir).contains f)).map
      (fun f => (f, compare_function (lookupBlocks before_ir f) (lookupBlocks after_ir f)))
  , instruction_changes := ⟨[], [], []⟩ }

/-- analyze_changes (lines 213-251).  Entries are emitted for non-empty
    added_functions, removed_functions, and each non-empty bucket of
    instruction_changes in Python dict order (added, removed, modified); the
    emitted instruction types are instruction_added, instruction_removed and
    instruction_modified.  The impact checks then compare against the strings
    instruction_removal, function_removal, instruction_modified and
    function_modified, exactly as written at lines 246-248. -/
def analyze_changes (changes : StructuralDiff) : AnalysisReport :=
  let kt : List Transformation :=
    (if changes.added_functions.isEmpty then [] else
      [⟨"function_addition", changes.added_functions.length,
        "Added " ++ toString changes.added_functions.length ++ " new functions"⟩])
    ++ (if changes.removed_functions.isEmpty then [] else
      [⟨"function_removal", changes.removed_functions.length,
        "Removed " ++ toString changes.removed_functions.length ++ " functions"⟩])
    ++ (if changes.instruction_changes.added.isEmpty then [] else
      [⟨"instruction_added", changes.instruction_changes.added.length,
        toString changes.instruction_changes.added.length ++ " instructions added"⟩])
    ++ (if changes.instruction_changes.removed.isEmpty then [] else
      [⟨"instruction_removed", changes.instruction_changes.removed.length,
        toString changes.instruction_changes.removed.length ++ " instructions removed"⟩])
    ++ (if changes.instruction_changes.modified.isEmpty then [] else
      [⟨"instruction_modified", changes.instruction_changes.modified.length,
        toString changes.instruction_changes.modified.length ++ " instructions modified"⟩])
  { optimization_effects := []
  , performance_impact :=
      if kt.any (fun t => t.type == "instruction_removal" || t.type == "function_removal") then
        "high"
      else if kt.any (fun t => t.type == "instruction_modified" || t.type == "function_modified") then
        "medium"
      else "low"
  , key_transformations := kt }

/-- Modelled from the spec: the line-based unified diff of section 4.3, which
    the source delegates to the external library function
    difflib.unified_diff (line 148 of ir_diff_tool.py).  A longest common
    subsequence of the two line lists, used to tag lines as unchanged,
    before-only or after-only. -/
def lcs : List String → List String → List String
  | [], _ => []
  | _, [] => []
  | a :: as2, b :: bs2 =>
    if a = b then a :: lcs as2 bs2
    else
      let l1 := lcs as2 (b :: bs2)
      let l2 := lcs (a :: as2) bs2
      if l2.length ≤ l1.length then l1 else l2
termination_by xs ys => xs.length + ys.length

/-- Modelled from the spec: tagged diff body lines, one leading space for an
    unchanged line, a leading minus for a before-only line, a leading plus for
    an after-only line, walking both line lists along a common subsequence. -/
def emitDiff : List String → List String → List String → List String
  | bs, cs, [] => bs.map (fun l => "-" ++ l) ++ cs.map (fun l => "+" ++ l)
  | bs, cs, x :: xs =>
    (bs.takeWhile (fun l => l != x)).map (fun l => "-" ++ l)
    ++ (cs.takeWhile (fun l => l != x)).map (fun l => "+" ++ l)
    ++ (" " ++ x) :: emitDiff ((bs.dropWhile (fun l => l != x)).drop 1)
                             ((cs.dropWhile (fun l => l != x)).drop 1) xs

/-- Modelled from the spec: the hunk marker line of a unified diff. -/
def hunkHeader (n m : Nat) : String :=
  "@@" ++ (" -1," ++ toString n ++ " +1," ++ toString m ++ " @@")

/-- Modelled from the spec: difflib.unified_diff as invoked at lines 148-152
    of ir_diff_tool.py, with fromfile Before, tofile After and an empty
    lineterm.  Equal inputs produce an empty diff; otherwise the two
    truncated-newline file header lines are emitted before the first hunk
    marker, exactly as the external library documents. -/
def unified_diff (before_lines after_lines : List String) : List String :=
  if before_lines = after_lines then []
  else "--- Before" :: "+++ After"
       :: hunkHeader before_lines.length after_lines.length
       :: emitDiff before_lines after_lines (lcs before_lines after_lines)

/-- Python max(len(line) for line in ls) if ls else 0 (lines 197-198). -/
def maxLen (ls : List String) : Nat :=
  (ls.map (fun l => l.data.length)).foldl Nat.max 0

/-- Python format padding to a given character width, left aligned. -/
def padRight (s : String) (w : Nat) : String :=
  s ++ ⟨List.replicate (w - s.data.length) ' '⟩

/-- _align_lines (lines 194-211 of ir_diff_tool.py). -/
def align_lines (before after : List String) : List String :=
  let maxb := maxLen before
  (zipL before after).map
    (fun p => padRight (pyRstrip p.1) maxb ++ " | " ++ pyRstrip p.2)
  ++ (if after.length < before.length then
        (before.drop after.length).map (fun b => padRight (pyRstrip b) maxb ++ " |")
      else if before.length < after.length then
        (after.drop before.length).map (fun a2 => padRight "" maxb ++ " | " ++ pyRstrip a2)
      else [])

/-- The loop of _format_side_by_side (lines 171-192), with the output list
    produced in order and the pending before and after accumulators as
    arguments. -/
def fsbsGo : List String → List String → List String → List String
  | [], bs, cs => if bs.isEmpty && cs.isEmpty then [] else align_lines bs cs
  | l :: rest, bs, cs =>
    if pyStartswith l "-" then fsbsGo rest (bs ++ [pyDrop1 l]) cs
    else if pyStartswith l "+" then fsbsGo rest bs (cs ++ [pyDrop1 l])
    else if bs.isEmpty && cs.isEmpty then l :: fsbsGo rest [] []
    else align_lines bs cs ++ l :: fsbsGo rest [] []

/-- _format_side_by_side (lines 171-192 of ir_diff_tool.py). -/
def format_side_by_side (section2 : List String) : List String :=
  fsbsGo section2 [] []

/-- The loop of generate_side_by_side_diff (lines 155-167), with the output
    produced so far and the current section as arguments. -/
def gsbsGo : List String → List String → List String → List String
  | [], out, sec => out ++ (if sec.isEmpty then [] else format_side_by_side sec)
  | l :: rest, out, sec =>
    if pyStartswith l "@@" then
      gsbsGo rest (out ++ (if sec.isEmpty then [] else format_side_by_side sec)) []
    else gsbsGo rest out (sec ++ [l])

/-- The row list of generate_side_by_side_diff, before the final join. -/
def generate_side_by_side_rows (before_lines after_lines : List String) : List String :=
  gsbsGo (unified_diff before_lines after_lines) [] []

/-- Python backslash-n join (line 169). -/
def joinNL : List String → String
  | [] => ""
  | [x] => x
  | x :: rest => x ++ "\n" ++ joinNL rest

/-- generate_side_by_side_diff (lines 141-169 of ir_diff_tool.py), taking the
    two readlines results rather than file names. -/
def generate_side_by_side_diff (before_lines after_lines : List String) : String :=
  joinNL (generate_side_by_side_rows before_lines after_lines)

/-- A line kept by the parser: a function-definition line, or an indented body
    line whose stripped content is not a comment.  All other lines never enter
    any block. -/
def keepLine (l : String) : Bool :=
  pyStartswith l "define" || (pyStartswith l "  " && !pyStartswith (pyStrip l) ";")

def keptLines (ls : List String) : List String := ls.filter keepLine

/-- A line that flushes the pending block and empties it: neither a
    function-definition line nor an indented body line. -/
def isFlush (l : String) : Bool :=
  !pyStartswith l "define" && !pyStartswith l "  "

def joinAll : List IRBlock → List String
  | [] => []
  | b :: bs => b ++ joinAll bs

/-- Concatenation of all block contents of a model, function by function. -/
def serializeModel : FunctionModel → List String
  | [] => []
  | (_, bs) :: rest => joinAll bs ++ serializeModel rest

/-- The function names extracted from the definition lines of a document. -/
def defineNames (ls : List String) : List String :=
  (ls.filter (fun l => pyStartswith l "define")).map (fun l => (extractName l).getD "")

def nodupBool : List String → Bool
  | [] => true
  | x :: xs => !xs.contains x && nodupBool xs

/-- Every function-definition line of the document is immediately preceded by
    a flush line (the first line of the document is unconstrained). -/
def prevFlushOk : List String → Bool
  | [] => true
  | [_] => true
  | a :: b :: rest => (!pyStartswith b "define" || isFlush a) && prevFlushOk (b :: rest)

/-- The last line of the document, when present, is a flush line. -/
def lastFlushOk : List String → Bool
  | [] => true
  | [a] => isFlush a
  | _ :: b :: rest => lastFlushOk (b :: rest)

/-- No kept line occurs before the first function-definition line. -/
def preludeOk (ls : List String) : Bool :=
  (ls.takeWhile (fun l => !pyStartswith l "define")).all (fun l => !keepLine l)

/-- Every function-definition line yields a name: it holds an at-sign and the
    extracted name is non-empty. -/
def definesOk (ls : List String) : Bool :=
  ls.all (fun l => !pyStartswith l "define" ||
    (match extractName l with
     | some n => !n.data.isEmpty
     | none => false))

/-- Run of the parser from a given state followed by serialization of the
    finalized model. -/
def runSer (st : ParseState) (ls : List String) : Option (List String) :=
  (runLines st ls).map (fun st2 => serializeModel (finalizeModel st2))

/- Helper lemmas. -/

theorem isPrefixOf_append_left (p t : List Char) : p.isPrefixOf (p ++ t) = true := by
  induction p with
  | nil => simp [List.isPrefixOf]
  | cons c p ih => simp [List.isPrefixOf, ih]

theorem isPrefixOf_exists {p s : List Char} (h : p.isPrefixOf s = true) : ∃ t, s = p ++ t := by
  simp at h
  obtain ⟨t, ht⟩ := h
  exact ⟨t, ht.symm⟩

theorem indent_not_define {l : String} (h : pyStartswith l "  " = true) :
    pyStartswith l "define" = false := by
  obtain ⟨t, ht⟩ := isPrefixOf_exists (p := "  ".data) h
  have h2 : "  ".data = [' ', ' '] := rfl
  rw [h2] at ht
  simp [pyStartswith, ht, List.isPrefixOf]

theorem pct_not_comment {s : String} (h : pyStartswith s "%" = true) :
    pyStartswith s ";" = false := by
  obtain ⟨t, ht⟩ := isPrefixOf_exists (p := "%".data) h
  have h2 : "%".data = ['%'] := rfl
  rw [h2] at ht
  simp [pyStartswith, ht, List.isPrefixOf]

theorem processLine_isSome (st : ParseState) (l : String)
    (h : pyStartswith l "define" = true → (extractName l).isSome) :
    (processLine st l).isSome := by
  by_cases hd : pyStartswith l "define" = true
  · obtain ⟨n, hn⟩ := Option.isSome_iff_exists.mp (h hd)
    simp [processLine, hd, hn]
  · rw [Bool.not_eq_true] at hd
    simp only [processLine, hd, Bool.false_eq_true, if_false]
    split
    · split
      · simp
      · split <;> simp
    · split <;> simp

theorem runLines_isSome : ∀ (ls : List String) (st : ParseState),
    (∀ l ∈ ls, pyStartswith l "define" = true → (extractName l).isSome) →
    (runLines st ls).isSome := by
  intro ls
  induction ls with
  | nil => intro st _; simp [runLines]
  | cons a ls ih =>
    intro st h
    have ha := processLine_isSome st a (fun hd => h a (by simp) hd)
    obtain ⟨st2, hst2⟩ := Option.isSome_iff_exists.mp ha
    simp only [runLines, hst2]
    exact ih st2 (fun l hl => h l (by simp [hl]))

theorem splitCharList_ne_nil (c : Char) (xs : List Char) : splitCharList c xs ≠ [] := by
  induction xs with
  | nil => simp [splitCharList]
  | cons x xs ih =>
    simp only [splitCharList]
    cases h : splitCharList c xs with
    | nil => exact absurd h ih
    | cons y ys => by_cases hx : x = c <;> simp [hx]

theorem splitCharList_two_of_mem {c : Char} {xs : List Char} (h : c ∈ xs) :
    ∃ a b rest, splitCharList c xs = a :: b :: rest := by
  induction xs with
  | nil => cases h
  | cons x xs ih =>
    by_cases hx : x = c
    · cases hr : splitCharList c xs with
      | nil => exact absurd hr (splitCharList_ne_nil c xs)
      | cons y ys => exact ⟨[], y, ys, by simp [splitCharList, hr, hx]⟩
    · have hcx : c ∈ xs := by
        rcases List.mem_cons.mp h with h1 | h1
        · exact absurd h1.symm hx
        · exact h1
      obtain ⟨a, b, rest, hr⟩ := ih hcx
      exact ⟨x :: a, b, rest, by simp [splitCharList, hr, hx]⟩

theorem extractName_isSome_of_at {l : String} (h : '@' ∈ l.data) :
    (extractName l).isSome := by
  obtain ⟨a, b, rest, hr⟩ := splitCharList_two_of_mem h
  simp [extractName, pySplitChar, hr]

theorem processLine_no_define {st : ParseState} {l : String}
    (hd : pyStartswith l "define" = false) :
    ∃ st2, processLine st l = some st2 ∧ st2.functions = st.functions
      ∧ st2.current_func = st.current_func := by
  simp only [processLine, hd, Bool.false_eq_true, if_false]
  split
  · split
    · exact ⟨st, rfl, rfl, rfl⟩
    · split
      · exact ⟨_, rfl, rfl, rfl⟩
      · exact ⟨_, rfl, rfl, rfl⟩
  · split
    · exact ⟨st, rfl, rfl, rfl⟩
    · exact ⟨_, rfl, rfl, rfl⟩

theorem runLines_no_define : ∀ (ls : List String) (st : ParseState),
    (∀ l ∈ ls, pyStartswith l "define" = false) →
    ∃ st2, runLines st ls = some st2 ∧ st2.functions = st.functions
      ∧ st2.current_func = st.current_func := by
  intro ls
  induction ls with
  | nil => intro st _; exact ⟨st, rfl, rfl, rfl⟩
  | cons a ls ih =>
    intro st h
    obtain ⟨st2, h1, h2, h3⟩ := @processLine_no_define st a (h a (by simp))
    obtain ⟨st3, g1, g2, g3⟩ := ih st2 (fun l hl => h l (by simp [hl]))
    exact ⟨st3, by simp [runLines, h1, g1], by rw [g2, h2], by rw [g3, h3]⟩

theorem hunkHeader_at2 (n m : Nat) : pyStartswith (hunkHeader n m) "@@" = true := by
  unfold hunkHeader pyStartswith
  rw [String.data_append]
  exact isPrefixOf_append_left _ _

theorem gsbsGo_out : ∀ (rest out sec : List String), ∃ t, gsbsGo rest out sec = out ++ t := by
  intro rest
  induction rest with
  | nil => intro out sec; exact ⟨_, rfl⟩
  | cons l rest ih =>
    intro out sec
    by_cases h : pyStartswith l "@@" = true
    · obtain ⟨t, ht⟩ := ih (out ++ (if sec.isEmpty then [] else format_side_by_side sec)) []
      exact ⟨(if sec.isEmpty then [] else format_side_by_side sec) ++ t,
        by simp only [gsbsGo, h, if_true, ht, List.append_assoc]⟩
    · rw [Bool.not_eq_true] at h
      obtain ⟨t, ht⟩ := ih out (sec ++ [l])
      exact ⟨t, by simp only [gsbsGo, h, Bool.false_eq_true, if_false, ht]⟩

theorem joinAll_append (xs ys : List IRBlock) : joinAll (xs ++ ys) = joinAll xs ++ joinAll ys := by
  induction xs with
  | nil => simp [joinAll]
  | cons b bs ih => simp [joinAll, ih]

theorem serializeModel_append (m : FunctionModel) (f : String) (bs : List IRBlock) :
    serializeModel (m ++ [(f, bs)]) = serializeModel m ++ joinAll bs := by
  induction m with
  | nil => simp [serializeModel, joinAll]
  | cons p m ih => cases p with
    | mk q r => simp [serializeModel, ih]

theorem dictInsert_append {m : FunctionModel} {k : String} (v : List IRBlock)
    (h : ∀ p ∈ m, p.1 ≠ k) : dictInsert m k v = m ++ [(k, v)] := by
  have h2 : m.any (fun p => p.1 == k) = false := by
    rw [List.any_eq_false]
    intro p hp
    simp [h p hp]
  simp [dictInsert, h2]

theorem nodupBool_sep : ∀ (xs : List String) {y : String} {ys : List String},
    nodupBool (xs ++ y :: ys) = true → ∀ x ∈ xs, x ≠ y := by
  intro xs
  induction xs with
  | nil => intro y ys _ x hx; cases hx
  | cons a xs ih =>
    intro y ys h x hx
    simp only [List.cons_append, nodupBool, Bool.and_eq_true] at h
    rcases List.mem_cons.mp hx with rfl | hx2
    · intro hxy
      subst hxy
      have h1 := h.1
      rw [Bool.not_eq_true'] at h1
      simp only [List.contains, List.elem_eq_mem, decide_eq_false_iff_not] at h1
      exact h1 (by simp)
    · exact ih h.2 x hx2

theorem prevFlushOk_tail {a : String} {ls : List String} (h : prevFlushOk (a :: ls) = true) :
    prevFlushOk ls = true := by
  cases ls with
  | nil => rfl
  | cons b ls2 => exact (Bool.and_eq_true_iff.mp h).2

theorem prevFlushOk_head {a b : String} {ls : List String} (h : prevFlushOk (a :: b :: ls) = true) :
    (!pyStartswith b "define" || isFlush a) = true := (Bool.and_eq_true_iff.mp h).1

theorem definesOk_tail {a : String} {ls : List String} (h : definesOk (a :: ls) = true) :
    definesOk ls = true := by
  simp only [definesOk, List.all_cons, Bool.and_eq_true] at h ⊢
  exact h.2

theorem definesOk_head {a : String} {ls : List String} (h : definesOk (a :: ls) = true)
    (hd : pyStartswith a "define" = true) :
    ∃ g, extractName a = some g ∧ g.data.isEmpty = false := by
  simp only [definesOk, List.all_cons, Bool.and_eq_true] at h
  have h1 := h.1
  rw [hd] at h1
  simp only [Bool.not_true, Bool.false_or] at h1
  cases he : extractName a with
  | none => rw [he] at h1; cases h1
  | some g =>
    rw [he] at h1
    simp only [Bool.not_eq_true'] at h1
    exact ⟨g, rfl, h1⟩

theorem defineNames_cons_define {a : String} (ls : List String)
    (h : pyStartswith a "define" = true) :
    defineNames (a :: ls) = (extractName a).getD "" :: defineNames ls := by
  simp [defineNames, List.filter_cons, h]

theorem defineNames_cons_other {a : String} (ls : List String)
    (h : pyStartswith a "define" = false) :
    defineNames (a :: ls) = defineNames ls := by
  simp [defineNames, List.filter_cons, h]

theorem keptLines_cons_keep {a : String} (ls : List String) (h : keepLine a = true) :
    keptLines (a :: ls) = a :: keptLines ls := by
  simp [keptLines, List.filter_cons, h]

theorem keptLines_cons_drop {a : String} (ls : List String) (h : keepLine a = false) :
    keptLines (a :: ls) = keptLines ls := by
  simp [keptLines, List.filter_cons, h]

theorem joinAll_flush (cbs : List IRBlock) (cb : IRBlock) :
    joinAll (if cb.isEmpty then cbs else cbs ++ [cb]) = joinAll cbs ++ cb := by
  by_cases h : cb.isEmpty = true
  · rw [if_pos h, List.isEmpty_iff.mp h]
    simp
  · rw [if_neg h, joinAll_append]
    simp [joinAll]

theorem runSer_cons {st st2 : ParseState} {a : String} (ls : List String)
    (h : processLine st a = some st2) : runSer st (a :: ls) = runSer st2 ls := by
  simp [runSer, runLines, h]

theorem processLine_define {st : ParseState} {a g : String}
    (hd : pyStartswith a "define" = true) (he : extractName a = some g) :
    processLine st a = some ⟨flushFunc st, some g, [], [a]⟩ := by
  simp [processLine, hd, he]

theorem flushFunc_some {fns : FunctionModel} {f : String} {cbs : List IRBlock} {cb : IRBlock}
    (hf : f.data.isEmpty = false) (hnotin : ∀ p ∈ fns, p.1 ≠ f) :
    flushFunc ⟨fns, some f, cbs, cb⟩ = fns ++ [(f, cbs)] := by
  simp only [flushFunc, hf, Bool.false_eq_true, if_false]
  exact dictInsert_append cbs hnotin

theorem processLine_comment {st : ParseState} {a : String}
    (hd : pyStartswith a "define" = false) (hin : pyStartswith a "  " = true)
    (hcm : pyStartswith (pyStrip a) ";" = true) :
    processLine st a = some st := by
  simp [processLine, hd, hin, hcm]

theorem processLine_newblock {st : ParseState} {a : String}
    (hd : pyStartswith a "define" = false) (hin : pyStartswith a "  " = true)
    (hcm : pyStartswith (pyStrip a) ";" = false)
    (hpz : (pyStartswith (pyStrip a) "%" && !pyStartswith (pyStrip a) "%0") = true) :
    processLine st a = some ⟨st.functions, st.current_func,
      (if st.current_block.isEmpty then st.current_blocks
       else st.current_blocks ++ [st.current_block]), [a]⟩ := by
  simp [processLine, hd, hin, hcm, hpz]

theorem processLine_appendline {st : ParseState} {a : String}
    (hd : pyStartswith a "define" = false) (hin : pyStartswith a "  " = true)
    (hcm : pyStartswith (pyStrip a) ";" = false)
    (hpz : (pyStartswith (pyStrip a) "%" && !pyStartswith (pyStrip a) "%0") = false) :
    processLine st a = some ⟨st.functions, st.current_func, st.current_blocks,
      st.current_block ++ [a]⟩ := by
  simp [processLine, hd, hin, hcm, hpz]

theorem processLine_flushline {st : ParseState} {a : String}
    (hd : pyStartswith a "define" = false) (hin : pyStartswith a "  " = false) :
    processLine st a = some ⟨st.functions, st.current_func,
      (if st.current_block.isEmpty then st.current_blocks
       else st.current_blocks ++ [st.current_block]), []⟩ := by
  by_cases hemp : st.current_block.isEmpty = true
  · have hcb : st.current_block = [] := List.isEmpty_iff.mp hemp
    cases st with
    | mk w x y z =>
      simp only at hcb
      subst hcb
      simp [processLine, hd, hin, hemp]
  · rw [Bool.not_eq_true] at hemp
    simp [processLine, hd, hin, hemp]

theorem keepLine_define {a : String} (hd : pyStartswith a "define" = true) :
    keepLine a = true := by
  simp [keepLine, hd]

theorem keepLine_body {a : String} (hin : pyStartswith a "  " = true)
    (hcm : pyStartswith (pyStrip a) ";" = false) : keepLine a = true := by
  simp [keepLine, hin, hcm]

theorem keepLine_comment {a : String} (hd : pyStartswith a "define" = false)
    (hcm : pyStartswith (pyStrip a) ";" = true) : keepLine a = false := by
  simp [keepLine, hd, hcm]

theorem keepLine_flush {a : String} (hd : pyStartswith a "define" = false)
    (hin : pyStartswith a "  " = false) : keepLine a = false := by
  simp [keepLine, hd, hin]

theorem preludeOk_cons {a : String} {ls : List String}
    (hd : pyStartswith a "define" = false) (h : preludeOk (a :: ls) = true) :
    keepLine a = false ∧ preludeOk ls = true := by
  simp only [preludeOk, List.takeWhile_cons, hd, Bool.not_false, if_true, List.all_cons,
    Bool.and_eq_true, Bool.not_eq_true'] at h
  exact ⟨h.1, h.2⟩

theorem runSer_some : ∀ (ls : List String) (fns : FunctionModel) (f : String)
    (cbs : List IRBlock) (cb : IRBlock),
    definesOk ls = true →
    nodupBool (keysOf fns ++ f :: defineNames ls) = true →
    f.data.isEmpty = false →
    prevFlushOk ls = true →
    lastFlushOk ls = true →
    (∀ l, ls.head? = some l → pyStartswith l "define" = true → cb = []) →
    (ls = [] → cb = []) →
    runSer ⟨fns, some f, cbs, cb⟩ ls
      = some (serializeModel fns ++ joinAll cbs ++ cb ++ keptLines ls) := by
  intro ls
  induction ls with
  | nil =>
    intro fns f cbs cb hok hnd hf hpf hlf hfirst hemp
    have hcb := hemp rfl
    subst hcb
    have hnotin : ∀ p ∈ fns, p.1 ≠ f := fun p hp =>
      nodupBool_sep (keysOf fns) hnd p.1 (List.mem_map_of_mem Prod.fst hp)
    have hfin : finalizeModel ⟨fns, some f, cbs, []⟩ = fns ++ [(f, cbs)] :=
      flushFunc_some hf hnotin
    simp [runSer, runLines, hfin, serializeModel_append, keptLines]
  | cons a ls ih =>
    intro fns f cbs cb hok hnd hf hpf hlf hfirst hemp
    by_cases hd : pyStartswith a "define" = true
    · have hcb : cb = [] := hfirst a rfl hd
      subst hcb
      obtain ⟨g, hg, hgne⟩ := definesOk_head hok hd
      have hnotin : ∀ p ∈ fns, p.1 ≠ f := fun p hp =>
        nodupBool_sep (keysOf fns) hnd p.1 (List.mem_map_of_mem Prod.fst hp)
      have hstep : processLine ⟨fns, some f, cbs, []⟩ a
          = some ⟨fns ++ [(f, cbs)], some g, [], [a]⟩ := by
        rw [processLine_define hd hg, flushFunc_some hf hnotin]
      cases ls with
      | nil =>
        exfalso
        have h2 : lastFlushOk [a] = true := hlf
        simp [lastFlushOk, isFlush, hd] at h2
      | cons b ls2 =>
        have hbd : pyStartswith b "define" = false := by
          have hh := prevFlushOk_head hpf
          simp [isFlush, hd] at hh
          exact hh
        have hnd2 : nodupBool (keysOf (fns ++ [(f, cbs)]) ++ g :: defineNames (b :: ls2)) = true := by
          have e1 : keysOf (fns ++ [(f, cbs)]) = keysOf fns ++ [f] := by simp [keysOf]
          have e2 : defineNames (a :: b :: ls2) = g :: defineNames (b :: ls2) := by
            rw [defineNames_cons_define _ hd, hg]
            rfl
          rw [e1, ← List.append_cons]
          rw [e2] at hnd
          exact hnd
        rw [runSer_cons _ hstep]
        rw [ih (fns ++ [(f, cbs)]) g [] [a] (definesOk_tail hok) hnd2 hgne
          (prevFlushOk_tail hpf) hlf
          (fun l hl hdl => by
            have hlb : l = b := (Option.some.inj hl).symm
            rw [hlb, hbd] at hdl
            cases hdl)
          (fun h2 => by cases h2)]
        rw [serializeModel_append, keptLines_cons_keep _ (keepLine_define hd)]
        simp [joinAll]
    · rw [Bool.not_eq_true] at hd
      by_cases hin : pyStartswith a "  " = true
      · have hnfl : isFlush a = false := by simp [isFlush, hin]
        cases ls with
        | nil =>
          exfalso
          have h2 : lastFlushOk [a] = true := hlf
          rw [lastFlushOk, hnfl] at h2
          cases h2
        | cons b ls2 =>
          have hbd : pyStartswith b "define" = false := by
            have hh := prevFlushOk_head hpf
            rw [hnfl] at hh
            simp at hh
            exact hh
          have hnd2 : nodupBool (keysOf fns ++ f :: defineNames (b :: ls2)) = true := by
            rw [defineNames_cons_other _ hd] at hnd
            exact hnd
          by_cases hcm : pyStartswith (pyStrip a) ";" = true
          · rw [runSer_cons _ (processLine_comment hd hin hcm)]
            rw [ih fns f cbs cb (definesOk_tail hok) hnd2 hf (prevFlushOk_tail hpf) hlf
              (fun l hl hdl => by
                have hlb : l = b := (Option.some.inj hl).symm
                rw [hlb, hbd] at hdl
                cases hdl)
              (fun h2 => by cases h2)]
            rw [keptLines_cons_drop _ (keepLine_comment hd hcm)]
          · rw [Bool.not_eq_true] at hcm
            by_cases hpz : (pyStartswith (pyStrip a) "%" && !pyStartswith (pyStrip a) "%0") = true
            · rw [runSer_cons _ (processLine_newblock hd hin hcm hpz)]
              rw [ih fns f (if cb.isEmpty then cbs else cbs ++ [cb]) [a]
                (definesOk_tail hok) hnd2 hf (prevFlushOk_tail hpf) hlf
                (fun l hl hdl => by
                  have hlb : l = b := (Option.some.inj hl).symm
                  rw [hlb, hbd] at hdl
                  cases hdl)
                (fun h2 => by cases h2)]
              rw [joinAll_flush, keptLines_cons_keep _ (keepLine_body hin hcm)]
              simp
            · rw [Bool.not_eq_true] at hpz
              rw [runSer_cons _ (processLine_appendline hd hin hcm hpz)]
              rw [ih fns f cbs (cb ++ [a])
                (definesOk_tail hok) hnd2 hf (prevFlushOk_tail hpf) hlf
                (fun l hl hdl => by
                  have hlb : l = b := (Option.some.inj hl).symm
                  rw [hlb, hbd] at hdl
                  cases hdl)
                (fun h2 => by cases h2)]
              rw [keptLines_cons_keep _ (keepLine_body hin hcm)]
              simp
      · rw [Bool.not_eq_true] at hin
        rw [runSer_cons _ (processLine_flushline hd hin)]
        have hnd2 : nodupBool (keysOf fns ++ f :: defineNames ls) = true := by
          rw [defineNames_cons_other _ hd] at hnd
          exact hnd
        have hlf2 : lastFlushOk ls = true := by
          cases ls with
          | nil => rfl
          | cons b ls2 => exact hlf
        rw [ih fns f (if cb.isEmpty then cbs else cbs ++ [cb]) []
          (definesOk_tail hok) hnd2 hf (prevFlushOk_tail hpf) hlf2
          (fun _ _ _ => rfl) (fun _ => rfl)]
        rw [joinAll_flush, keptLines_cons_drop _ (keepLine_flush hd hin)]
        simp

theorem runSer_none : ∀ (ls : List String) (cbs : List IRBlock) (cb : IRBlock),
    definesOk ls = true →
    nodupBool (defineNames ls) = true →
    preludeOk ls = true →
    prevFlushOk ls = true →
    lastFlushOk ls = true →
    runSer ⟨[], none, cbs, cb⟩ ls = some (keptLines ls) := by
  intro ls
  induction ls with
  | nil =>
    intro cbs cb _ _ _ _ _
    simp [runSer, runLines, finalizeModel, flushFunc, serializeModel, keptLines]
  | cons a ls ih =>
    intro cbs cb hok hnd hpre hpf hlf
    by_cases hd : pyStartswith a "define" = true
    · obtain ⟨g, hg, hgne⟩ := definesOk_head hok hd
      have hstep : processLine ⟨[], none, cbs, cb⟩ a = some ⟨[], some g, [], [a]⟩ := by
        rw [processLine_define hd hg]
        rfl
      cases ls with
      | nil =>
        exfalso
        have h2 : lastFlushOk [a] = true := hlf
        simp [lastFlushOk, isFlush, hd] at h2
      | cons b ls2 =>
        have hbd : pyStartswith b "define" = false := by
          have hh := prevFlushOk_head hpf
          simp [isFlush, hd] at hh
          exact hh
        have hnd2 : nodupBool (keysOf ([] : FunctionModel) ++ g :: defineNames (b :: ls2)) = true := by
          have e2 : defineNames (a :: b :: ls2) = g :: defineNames (b :: ls2) := by
            rw [defineNames_cons_define _ hd, hg]
            rfl
          rw [e2] at hnd
          exact hnd
        rw [runSer_cons _ hstep]
        rw [runSer_some (b :: ls2) [] g [] [a] (definesOk_tail hok) hnd2 hgne
          (prevFlushOk_tail hpf) hlf
          (fun l hl hdl => by
            have hlb : l = b := (Option.some.inj hl).symm
            rw [hlb, hbd] at hdl
            cases hdl)
          (fun h2 => by cases h2)]
        rw [keptLines_cons_keep _ (keepLine_define hd)]
        simp [serializeModel, joinAll]
    · rw [Bool.not_eq_true] at hd
      obtain ⟨hka, hpre2⟩ := preludeOk_cons hd hpre
      have hlf2 : lastFlushOk ls = true := by
        cases ls with
        | nil => rfl
        | cons b ls2 => exact hlf
      have hnd2 : nodupBool (defineNames ls) = true := by
        rw [defineNames_cons_other _ hd] at hnd
        exact hnd
      by_cases hin : pyStartswith a "  " = true
      · have hcm : pyStartswith (pyStrip a) ";" = true := by
          cases hcm2 : pyStartswith (pyStrip a) ";" with
          | true => rfl
          | false =>
            exfalso
            rw [keepLine_body hin hcm2] at hka
            cases hka
        rw [runSer_cons _ (processLine_comment hd hin hcm)]
        rw [ih cbs cb (definesOk_tail hok) hnd2 hpre2 (prevFlushOk_tail hpf) hlf2]
        rw [keptLines_cons_drop _ hka]
      · rw [Bool.not_eq_true] at hin
        rw [runSer_cons _ (processLine_flushline hd hin)]
        rw [ih (if cb.isEmpty then cbs else cbs ++ [cb]) []
          (definesOk_tail hok) hnd2 hpre2 (prevFlushOk_tail hpf) hlf2]
        rw [keptLines_cons_drop _ hka]

/- Claim theorems. -/

/-- Claim C1.  The claim states that structural_diff(M, M) has empty
    added_functions, empty removed_functions and empty modified_functions,
    and that a function present in both models is recorded in
    modified_functions only if its block sequences differ positionally.  The
    code violates the modified_functions part: the guard at line 101,
    "if func_changes:", tests a dict that always carries its three fixed
    keys and hence is always truthy, so every function present in both
    models is recorded.  This theorem evaluates the code at the failing
    input M with a single function f: the self diff records f in
    modified_functions with an all-empty function diff. -/
theorem claim_C1_self_diff_eval :
    (structural_diff [("f", [["  ret void"]])] [("f", [["  ret void"]])]).added_functions = []
    ∧ (structural_diff [("f", [["  ret void"]])] [("f", [["  ret void"]])]).removed_functions = []
    ∧ (structural_diff [("f", [["  ret void"]])] [("f", [["  ret void"]])]).modified_functions
        = [("f", ⟨[], [], []⟩)] := by decide

/-- Claim C2, counterexample.  The claim states that parse_ir never raises
    on any input text, naming a line that begins with the function-definition
    keyword but contains no at-sign as an example that must be handled.  On
    exactly that input the Python code raises IndexError at line 58
    (split on the at-sign yields a one-element list and index 1 is taken),
    modelled here as none. -/
theorem claim_C2_counterexample : parse_ir "define foo" = none := by decide

/-- Claim C2, amended.  parse_ir is total on every input in which each line
    beginning with the function-definition keyword contains an at-sign; on
    such inputs it returns a model and never fails.  A define line without
    at-sign raises IndexError; a define line with an at-sign but no opening
    parenthesis is handled without error. -/
theorem claim_C2_amended (content : String)
    (h : ∀ l ∈ pySplitLines content, pyStartswith l "define" = true → '@' ∈ l.data) :
    (parse_ir content).isSome := by
  have h2 := runLines_isSome (pySplitLines content) initState
    (fun l hl hd => extractName_isSome_of_at (h l hl hd))
  obtain ⟨st, hst⟩ := Option.isSome_iff_exists.mp h2
  simp [parse_ir, parse_lines, hst]

/-- Claim C2, witness: a well-formed document satisfies the hypothesis and
    parses successfully. -/
theorem claim_C2_witness :
    (∀ l ∈ pySplitLines "define void @f() \x7b\n  ret void\n\x7d",
      pyStartswith l "define" = true → '@' ∈ l.data) ∧
    (parse_ir "define void @f() \x7b\n  ret void\n\x7d").isSome :=
  ⟨by decide, claim_C2_amended _ (by decide)⟩

/-- Claim C3.  The claim states that a StructuralDiff whose
    instruction_changes bucket holds at least one removed instruction yields
    performance_impact high.  The code violates this: the bucket emits the
    category string instruction_removed (line 240), while the high check at
    line 246 looks for the string instruction_removal, which no emitter
    produces, and the medium check looks for instruction_modified or the
    never-emitted function_modified.  This theorem evaluates the code at the
    failing input, a diff with exactly one removed instruction: the emitted
    category is instruction_removed and the impact is low, not high. -/
theorem claim_C3_removed_instruction_eval :
    (analyze_changes ⟨[], [], [], ⟨[], ["  store i32 0, ptr %1"], []⟩⟩).performance_impact = "low"
    ∧ (analyze_changes ⟨[], [], [], ⟨[], ["  store i32 0, ptr %1"], []⟩⟩).key_transformations.map
        Transformation.type = ["instruction_removed"] := by decide

/-- Claim C4.  Blocks are compared strictly by positional index truncated to
    the shorter sequence: for before blocks A, B, C and after blocks X, A,
    B, C, all pairwise distinct, the differ records a modified-block entry at
    every pairwise index 0, 1 and 2, and the extra trailing block is not
    reported as added or removed. -/
theorem claim_C4_positional_blocks (A B C X : IRBlock)
    (hXA : X ≠ A) (hXB : X ≠ B) (hXC : X ≠ C)
    (hAB : A ≠ B) (hAC : A ≠ C) (hBC : B ≠ C) :
    (compare_function [A, B, C] [X, A, B, C]).modified_blocks.map Prod.fst = [0, 1, 2]
    ∧ (compare_function [A, B, C] [X, A, B, C]).added_blocks = []
    ∧ (compare_function [A, B, C] [X, A, B, C]).removed_blocks = [] := by
  refine ⟨?_, rfl, rfl⟩
  simp [compare_function, zipL, enumPairs, List.filter_cons, bne_iff_ne,
    Ne.symm hXA, Ne.symm hAB, Ne.symm hBC]

/-- Claim C4, witness at four concrete pairwise distinct blocks. -/
theorem claim_C4_witness :
    ((["x"] : IRBlock) ≠ ["a"] ∧ (["x"] : IRBlock) ≠ ["b"] ∧ (["x"] : IRBlock) ≠ ["c"]
      ∧ (["a"] : IRBlock) ≠ ["b"] ∧ (["a"] : IRBlock) ≠ ["c"] ∧ (["b"] : IRBlock) ≠ ["c"])
    ∧ (compare_function [["a"], ["b"], ["c"]] [["x"], ["a"], ["b"], ["c"]]).modified_blocks.map
        Prod.fst = [0, 1, 2] :=
  ⟨⟨by decide, by decide, by decide, by decide, by decide, by decide⟩,
   (claim_C4_positional_blocks ["a"] ["b"] ["c"] ["x"] (by decide) (by decide) (by decide)
     (by decide) (by decide) (by decide)).1⟩

/-- Claim C5.  Any StructuralDiff that holds at least one removed function
    and at least one added function yields performance_impact high: the
    emitted function_removal category matches the high check regardless of
    the addition. -/
theorem claim_C5_removal_outranks (changes : StructuralDiff)
    (hrem : changes.removed_functions ≠ []) (hadd : changes.added_functions ≠ []) :
    (analyze_changes changes).performance_impact = "high" := by
  have h1 : changes.removed_functions.isEmpty = false := by
    cases h : changes.removed_functions with
    | nil => exact absurd h hrem
    | cons a l => rfl
  simp [analyze_changes, h1, List.any_append]

/-- Claim C5, witness: one added and one removed function give high. -/
theorem claim_C5_witness :
    ((⟨["g"], ["f"], [], ⟨[], [], []⟩⟩ : StructuralDiff).removed_functions ≠ []) ∧
    ((⟨["g"], ["f"], [], ⟨[], [], []⟩⟩ : StructuralDiff).added_functions ≠ []) ∧
    (analyze_changes ⟨["g"], ["f"], [], ⟨[], [], []⟩⟩).performance_impact = "high" :=
  ⟨by decide, by decide, claim_C5_removal_outranks _ (by decide) (by decide)⟩

/-- Claim C6, counterexample.  The claim states that an indented line whose
    stripped content starts with a percent sign begins a new block if and
    only if it is not a definition of the literal first temporary, and that
    a value whose name merely begins with the character 0, such as one
    written percent-0-1, does start a new block.  The code instead tests the
    two-character prefix only (line 64), so the percent-0-1 line is appended
    to the current block: parsing the document below yields one block
    holding both body lines, not two blocks. -/
theorem claim_C6_counterexample :
    parse_lines ["define void @f() \x7b", "  %1 = add i32 1, 1", "  %01 = add i32 2, 2", "\x7d"]
      = some [("f", [["define void @f() \x7b"],
                     ["  %1 = add i32 1, 1", "  %01 = add i32 2, 2"]])] := by decide

/-- Claim C6, amended.  An indented body line whose stripped content starts
    with a percent sign starts a new block (flushing any accumulated block
    and opening a new block holding this line) if and only if its stripped
    content does not start with the two-character prefix percent-0; in
    particular definitions of values whose names begin with the character 0
    do not start a new block. -/
theorem claim_C6_amended (st : ParseState) (line : String)
    (hin : pyStartswith line "  " = true)
    (hpct : pyStartswith (pyStrip line) "%" = true) :
    processLine st line = some (
      if pyStartswith (pyStrip line) "%0" then
        ⟨st.functions, st.current_func, st.current_blocks, st.current_block ++ [line]⟩
      else
        ⟨st.functions, st.current_func,
         (if st.current_block.isEmpty then st.current_blocks
          else st.current_blocks ++ [st.current_block]), [line]⟩) := by
  have hd := indent_not_define hin
  have hc := pct_not_comment hpct
  by_cases hz : pyStartswith (pyStrip line) "%0" = true
  · simp [processLine, hd, hin, hc, hpct, hz]
  · rw [Bool.not_eq_true] at hz
    simp [processLine, hd, hin, hc, hpct, hz]

/-- Claim C6, witness at a concrete state and line. -/
theorem claim_C6_witness :
    pyStartswith "  %1 = alloca i32" "  " = true ∧
    pyStartswith (pyStrip "  %1 = alloca i32") "%" = true ∧
    processLine ⟨[], some "f", [], ["x"]⟩ "  %1 = alloca i32" =
      some (if pyStartswith (pyStrip "  %1 = alloca i32") "%0" then
        ⟨[], some "f", [], ["x", "  %1 = alloca i32"]⟩
      else
        ⟨[], some "f", [["x"]], ["  %1 = alloca i32"]⟩) := by
  refine ⟨by decide, by decide, ?_⟩
  have h := claim_C6_amended ⟨[], some "f", [], ["x"]⟩ "  %1 = alloca i32" (by decide) (by decide)
  simpa using h

/-- Claim C7.  When the before lines and the after lines are identical, the
    unified diff is empty, so the side-by-side output holds no rows at all:
    in particular it holds no before-after row with differing columns, and
    every row of the output is trivially a single unchanged line. -/
theorem claim_C7_identical_no_rows (ls : List String) :
    generate_side_by_side_rows ls ls = [] ∧ generate_side_by_side_diff ls ls = "" := by
  constructor
  · simp [generate_side_by_side_rows, unified_diff, gsbsGo]
  · simp [generate_side_by_side_diff, generate_side_by_side_rows, unified_diff, gsbsGo, joinNL]

/-- Claim C8.  For every input text in which no line begins with the
    function-definition keyword, the parser returns the empty mapping and
    signals no error. -/
theorem claim_C8_no_defines_empty (content : String)
    (h : (pySplitLines content).all (fun l => !pyStartswith l "define") = true) :
    parse_ir content = some [] := by
  rw [List.all_eq_true] at h
  obtain ⟨st2, h1, h2, h3⟩ := runLines_no_define (pySplitLines content) initState
    (fun l hl => by
      have := h l hl
      simpa using this)
  have hshow : parse_ir content = (runLines initState (pySplitLines content)).map finalizeModel := rfl
  rw [hshow, h1]
  have h3b : st2.current_func = none := by rw [h3]; rfl
  have h2b : st2.functions = [] := by rw [h2]; rfl
  simp [finalizeModel, flushFunc, h3b, h2b]

/-- Claim C8, witness on a document with no definition lines. -/
theorem claim_C8_witness :
    ((pySplitLines "hello\n  world").all (fun l => !pyStartswith l "define") = true) ∧
    parse_ir "hello\n  world" = some [] :=
  ⟨by decide, claim_C8_no_defines_empty "hello\n  world" (by decide)⟩

/-- Claim C9, counterexample.  The claim states that for every input
    document, concatenating the block contents of the parsed model recovers
    all definition lines and indented non-comment lines in order.  It fails
    on a document that ends inside a function body: the pending block is
    never flushed into the block list (neither the definition-line branch at
    lines 56-57 nor the end-of-input store at lines 75-76 appends the
    current block), so both lines of the document below are lost and the
    serialization is empty. -/
theorem claim_C9_counterexample :
    (parse_lines ["define void @f() \x7b", "  ret void"]).map serializeModel
      ≠ some (keptLines ["define void @f() \x7b", "  ret void"]) := by decide

/-- Claim C9, amended.  The round trip holds for documents in which every
    definition line carries an at-sign and a non-empty extracted name, the
    extracted names are pairwise distinct, no kept line precedes the first
    definition line, every definition line other than the first is
    immediately preceded by a flush line (neither indented nor a definition
    line), and the final line is a flush line: then concatenating the block
    contents of the parsed model recovers exactly the definition lines and
    the indented non-comment body lines, in their original order. -/
theorem claim_C9_amended (ls : List String)
    (h1 : definesOk ls = true) (h2 : nodupBool (defineNames ls) = true)
    (h3 : preludeOk ls = true) (h4 : prevFlushOk ls = true) (h5 : lastFlushOk ls = true) :
    (parse_lines ls).map serializeModel = some (keptLines ls) := by
  have e : (parse_lines ls).map serializeModel = runSer initState ls := by
    simp only [parse_lines, runSer, Option.map_map]
    rfl
  rw [e]
  exact runSer_none ls [] [] h1 h2 h3 h4 h5

/-- Claim C9, witness on a two-function well-formed document. -/
theorem claim_C9_witness :
    definesOk ["define void @f() \x7b", "  %1 = alloca i32", "  store i32 0, ptr %1", "\x7d",
      "", "define void @g() \x7b", "  ret void", "\x7d"] = true ∧
    nodupBool (defineNames ["define void @f() \x7b", "  %1 = alloca i32", "  store i32 0, ptr %1",
      "\x7d", "", "define void @g() \x7b", "  ret void", "\x7d"]) = true ∧
    (parse_lines ["define void @f() \x7b", "  %1 = alloca i32", "  store i32 0, ptr %1", "\x7d",
      "", "define void @g() \x7b", "  ret void", "\x7d"]).map serializeModel
      = some (keptLines ["define void @f() \x7b", "  %1 = alloca i32", "  store i32 0, ptr %1",
        "\x7d", "", "define void @g() \x7b", "  ret void", "\x7d"]) :=
  ⟨by decide, by decide,
   claim_C9_amended _ (by decide) (by decide) (by decide) (by decide) (by decide)⟩

/-- Claim C10.  For any two line lists whose unified diff is non-empty, the
    first row of the side-by-side output pairs the truncated file header
    lines: the before column holds the two-dash Before header and the after
    column the two-plus After header, because the header lines emitted
    before the first hunk marker are treated as removed and added content
    lines by the formatter rather than filtered out. -/
theorem claim_C10_header_row (before_lines after_lines : List String)
    (hne : before_lines ≠ after_lines) :
    (generate_side_by_side_rows before_lines after_lines).head?
      = some "-- Before | ++ After" := by
  unfold generate_side_by_side_rows unified_diff
  rw [if_neg hne]
  have h1 : pyStartswith "--- Before" "@@" = false := by decide
  have h2 : pyStartswith "+++ After" "@@" = false := by decide
  have h3 := hunkHeader_at2 before_lines.length after_lines.length
  have h4 : format_side_by_side ["--- Before", "+++ After"] = ["-- Before | ++ After"] := by decide
  simp only [gsbsGo, h1, h2, h3, Bool.false_eq_true, if_false, if_true, List.nil_append,
    List.singleton_append, List.isEmpty_cons, h4]
  obtain ⟨t, ht⟩ := gsbsGo_out
    (emitDiff before_lines after_lines (lcs before_lines after_lines))
    ["-- Before | ++ After"] []
  rw [ht]
  rfl

/-- Claim C10, witness on two concrete one-line files. -/
theorem claim_C10_witness :
    ((["a\n"] : List String) ≠ ["b\n"]) ∧
    (generate_side_by_side_rows ["a\n"] ["b\n"]).head? = some "-- Before | ++ After" :=
  ⟨by decide, claim_C10_header_row ["a\n"] ["b\n"] (by decide)⟩
